import Mathlib

set_option maxHeartbeats 1000000

/-!
Verification of the session/activity lifecycle and persistence model of the
message-forwarding service (`api/index.py`, `models.py`).

Python strings are modelled as `List Char` (a Lean `Char` is a Unicode scalar
value).  Python's `str.lower` is kept abstract: every statement that depends on
lowercasing is quantified over an arbitrary lowercasing function
`low : List Char → List Char`, so the results hold for full Unicode case
mapping.  Timestamps (`datetime.utcnow()` values) are modelled as `Nat`
(seconds).  The SQLAlchemy session objects held by reference in the Python code
(`self.db_session`) are modelled as an index into the list of persisted
session rows.
-/

namespace AutoForward

/-- Python `hay.startswith(needle)` on `List Char`: used to build the
substring test that models Python's `needle in hay`. -/
def startsWith : List Char → List Char → Bool
  | _, [] => true
  | [], _ :: _ => false
  | a :: s, b :: t => a == b && startsWith s t

/-- Python's substring containment `needle in hay` for strings. -/
def containsSub : List Char → List Char → Bool
  | [], needle => needle.isEmpty
  | a :: s, needle => startsWith (a :: s) needle || containsSub s needle

theorem startsWith_iff (needle : List Char) :
    ∀ hay, startsWith hay needle = true ↔ ∃ suf, hay = needle ++ suf := by
  induction needle with
  | nil =>
    intro hay
    simp [startsWith]
  | cons b t ih =>
    intro hay
    cases hay with
    | nil =>
      simp [startsWith]
    | cons a s =>
      simp only [startsWith, Bool.and_eq_true, beq_iff_eq, ih s, List.cons_append]
      constructor
      · rintro ⟨rfl, suf, rfl⟩
        exact ⟨suf, rfl⟩
      · rintro ⟨suf, h⟩
        cases h
        exact ⟨rfl, suf, rfl⟩

theorem containsSub_iff (needle : List Char) :
    ∀ hay, containsSub hay needle = true ↔ ∃ pre suf, hay = pre ++ needle ++ suf := by
  intro hay
  induction hay with
  | nil =>
    simp only [containsSub, List.isEmpty_iff]
    constructor
    · rintro rfl
      exact ⟨[], [], rfl⟩
    · rintro ⟨pre, suf, h⟩
      rcases List.append_eq_nil.mp h.symm with ⟨h1, rfl⟩
      exact (List.append_eq_nil.mp h1).2
  | cons a s ih =>
    simp only [containsSub, Bool.or_eq_true, startsWith_iff, ih]
    constructor
    · rintro (⟨suf, h⟩ | ⟨pre, suf, rfl⟩)
      · exact ⟨[], suf, by simpa using h⟩
      · exact ⟨a :: pre, suf, rfl⟩
    · rintro ⟨pre, suf, h⟩
      cases pre with
      | nil => exact Or.inl ⟨suf, by simpa using h⟩
      | cons p ps =>
        rw [List.cons_append, List.cons_append] at h
        cases h
        exact Or.inr ⟨ps, suf, rfl⟩

/-- The per-message keyword filter of `message_handler`
(`api/index.py` lines 175–178):

    should_forward = True
    if self.keywords:
        should_forward = any(keyword.lower() in message_text.lower()
                           for keyword in self.keywords)

`low` models Python's `str.lower`. -/
def shouldForward (low : List Char → List Char) (keywords : List (List Char))
    (message_text : List Char) : Bool :=
  if keywords.isEmpty then true
  else keywords.any fun keyword => containsSub (low message_text) (low keyword)

/-- C1: `shouldForward(K, T) = true` iff `K` is empty or some keyword `k ∈ K`
has `low k` a substring of `low T`.  The statement is quantified over the
lowercasing function `low` and over arbitrary Unicode text, so the filter is
exactly the case-insensitive substring test the spec describes. -/
theorem C1_keyword_filter (low : List Char → List Char)
    (K : List (List Char)) (T : List Char) :
    shouldForward low K T = true ↔
      K = [] ∨ ∃ k ∈ K, ∃ pre suf, low T = pre ++ low k ++ suf := by
  unfold shouldForward
  cases K with
  | nil => simp
  | cons k ks =>
    have hne : (k :: ks).isEmpty = false := rfl
    rw [hne]
    simp only [Bool.false_eq_true, if_false, List.any_eq_true]
    constructor
    · rintro ⟨k', hk', hc⟩
      exact Or.inr ⟨k', hk', (containsSub_iff (low k') (low T)).mp hc⟩
    · rintro (h | ⟨k', hk', hsub⟩)
      · exact absurd h (by simp)
      · exact ⟨k', hk', (containsSub_iff (low k') (low T)).mpr hsub⟩

/-! ## Data model (`models.py`)

Row `id` primary keys are autoincrement artifacts of the storage engine and
are not modelled; timestamps are `Nat`.  The `message_text` column is nullable
in the schema but the only writer (`_log_forwarded_message`) always supplies a
string, so it is modelled as `List Char`. -/

/-- Model of `models.ForwardedMessage` (lines 13–25). -/
structure ForwardedMessage where
  message_id : Nat
  source_chat : String
  destination_chat : String
  message_text : List Char
  has_media : Bool
  media_type : Option String
  forwarded_at : Nat
  keywords_matched : Option (List Char)
deriving Repr, DecidableEq

/-- The dictionary produced by `ForwardedMessage.to_dict` (lines 27–38). -/
structure MsgView where
  message_id : Nat
  source_chat : String
  destination_chat : String
  message_text : List Char
  has_media : Bool
  media_type : Option String
  forwarded_at : Nat
  keywords_matched : Option (List Char)
deriving Repr, DecidableEq

/-- Model of `ForwardedMessage.to_dict` (lines 27–38):
`self.message_text[:100] + '...' if self.message_text and len(self.message_text) > 100
else self.message_text` (Python truthiness of a string is non-emptiness). -/
def ForwardedMessage.to_dict (m : ForwardedMessage) : MsgView :=
  { message_id := m.message_id,
    source_chat := m.source_chat,
    destination_chat := m.destination_chat,
    message_text :=
      if !m.message_text.isEmpty && decide (100 < m.message_text.length) then
        m.message_text.take 100 ++ ['.', '.', '.']
      else m.message_text,
    has_media := m.has_media,
    media_type := m.media_type,
    forwarded_at := m.forwarded_at,
    keywords_matched := m.keywords_matched }

/-- Model of `models.BotSession` (lines 40–56), with the schema's column defaults
(`is_active=True`, `messages_received=0`, `messages_forwarded=0`). -/
structure BotSession where
  session_id : String
  source_chat : String
  destination_chat : String
  keywords : Option (List Char)
  forward_media : Bool
  delay_seconds : Nat
  started_at : Nat
  stopped_at : Option Nat
  is_active : Bool
  messages_received : Nat
  messages_forwarded : Nat
  last_activity : Nat
deriving Repr, DecidableEq

/-- Model of `models.ErrorLog` (lines 75–85). -/
structure ErrorLog where
  session_id : Option String
  error_type : String
  error_message : String
  stack_trace : Option String
  occurred_at : Nat
  resolved : Bool
deriving Repr, DecidableEq

/-- The relational store: the three tables of `models.py`. -/
structure DB where
  forwarded : List ForwardedMessage
  sessions : List BotSession
  errors : List ErrorLog
deriving Repr, DecidableEq

/-- One inbound `events.NewMessage` payload: `event.message.id`,
`event.message.text` (possibly absent) and `event.message.media`, the latter
modelled by the name `type(media).__name__` when media is present. -/
structure Event where
  message_id : Nat
  text : Option (List Char)
  media : Option String
deriving Repr, DecidableEq

/-- The in-process state of one `TelegramAutoForwarder` instance:
configuration fields, client/auth flags, the reference to the owned
`BotSession` row (modelled as its index in `DB.sessions`), and the in-memory
`self.stats` dictionary. -/
structure Bot where
  source_chat : String
  destination_chat : String
  keywords : List (List Char)
  forward_media : Bool
  delay_seconds : Nat
  session_id : String
  hasClient : Bool
  connected : Bool
  authenticated : Bool
  running : Bool
  db_session : Option Nat
  messages_received : Nat
  messages_forwarded : Nat
  last_message_time : Option Nat
  start_time : Option Nat
  errors : List (Nat × String)
deriving Repr, DecidableEq

/-- In-place update of one row by index (the effect of mutating an ORM object
held by reference and committing); out-of-range indices leave the list
unchanged. -/
def updateAt {α : Type} : List α → Nat → (α → α) → List α
  | [], _, _ => []
  | a :: t, 0, f => f a :: t
  | a :: t, n + 1, f => a :: updateAt t n f

theorem length_updateAt {α : Type} (l : List α) (i : Nat) (f : α → α) :
    (updateAt l i f).length = l.length := by
  induction l generalizing i with
  | nil => rfl
  | cons a t ih =>
    cases i with
    | zero => rfl
    | succ n => simp [updateAt, ih]

theorem getElem?_updateAt {α : Type} (l : List α) (i j : Nat) (f : α → α) :
    (updateAt l i f)[j]? = if i = j then (l[j]?).map f else l[j]? := by
  induction l generalizing i j with
  | nil => simp [updateAt]
  | cons a t ih =>
    cases i with
    | zero =>
      cases j with
      | zero => simp [updateAt]
      | succ m => simp [updateAt]
    | succ n =>
      cases j with
      | zero => simp [updateAt]
      | succ m =>
        simp only [updateAt, List.getElem?_cons_succ, ih n m]
        by_cases h : n = m
        · simp [h]
        · simp [h, fun hc => h (Nat.succ_injective hc)]

/-- Python `','.join(strs)`. -/
def joinComma : List (List Char) → List Char
  | [] => []
  | [k] => k
  | k :: rest => k ++ [','] ++ joinComma rest

/-! ## Persistence helpers of `TelegramAutoForwarder`

Each helper wraps its body in `try: if database: ... except: logger.error(...)`.
`hasDB` models `database` being non-`None`; `dbFails` models an exception
raised by the storage engine inside the `try` (writes are transactional, so a
failed commit leaves no observable row); the `log` component collects the
`logger.error` diagnostics. -/

/-- Body of the `try` in `_log_forwarded_message` (lines 263–294): build one
`ForwardedMessage` row (text truncated to 1000 for storage, matched keywords
recomputed and comma-joined), append it, and bump the owning session row's
`messages_forwarded` and `last_activity`. -/
def attemptLogForwarded (low : List Char → List Char) (t : Nat) (ev : Event)
    (matched_keywords : Bool) (bot : Bot) (db : DB) : DB :=
  let message_text := ev.text.getD []
  let media_type := ev.media
  let matched_kw : Option (List Char) :=
    if matched_keywords && !bot.keywords.isEmpty then
      let matched := bot.keywords.filter fun kw => containsSub (low message_text) (low kw)
      if matched.isEmpty then none else some (joinComma matched)
    else none
  let row : ForwardedMessage :=
    { message_id := ev.message_id,
      source_chat := bot.source_chat,
      destination_chat := bot.destination_chat,
      message_text := message_text.take 1000,
      has_media := ev.media.isSome,
      media_type := media_type,
      forwarded_at := t,
      keywords_matched := matched_kw }
  let db1 : DB := { db with forwarded := db.forwarded ++ [row] }
  match bot.db_session with
  | some i =>
      { db1 with sessions := updateAt db1.sessions i fun s =>
          { s with messages_forwarded := s.messages_forwarded + 1, last_activity := t } }
  | none => db1

/-- Model of `_log_forwarded_message` (lines 261–296). -/
def _log_forwarded_message (low : List Char → List Char) (hasDB dbFails : Bool)
    (t : Nat) (ev : Event) (matched_keywords : Bool) (bot : Bot) (db : DB)
    (log : List String) : DB × List String :=
  if hasDB then
    if dbFails then (db, log ++ ["Failed to log forwarded message"])
    else (attemptLogForwarded low t ev matched_keywords bot db, log)
  else (db, log)

/-- Model of `_log_error` (lines 298–313): append one `ErrorLog` row, swallowing
persistence failures with a local diagnostic. -/
def _log_error (hasDB dbFails : Bool) (session_id : String)
    (error_type error_message : String) (stack_tr : Option String) (t : Nat)
    (db : DB) (log : List String) : DB × List String :=
  if hasDB then
    if dbFails then (db, log ++ ["Failed to log error to database"])
    else ({ db with errors := db.errors ++
            [{ session_id := some session_id, error_type := error_type,
               error_message := error_message, stack_trace := stack_tr,
               occurred_at := t, resolved := false }] }, log)
  else (db, log)

/-- Model of `_create_db_session` (lines 241–259): insert the run's `BotSession` row
with `is_active=True` and keep a reference to it.  On a persistence failure
the commit raises, no row becomes observable, and the reference is modelled
as absent. -/
def _create_db_session (hasDB dbFails : Bool) (t : Nat) (bot : Bot) (db : DB)
    (log : List String) : Bot × DB × List String :=
  if hasDB then
    if dbFails then (bot, db, log ++ ["Failed to create database session"])
    else
      let row : BotSession :=
        { session_id := bot.session_id,
          source_chat := bot.source_chat,
          destination_chat := bot.destination_chat,
          keywords := if bot.keywords.isEmpty then none else some (joinComma bot.keywords),
          forward_media := bot.forward_media,
          delay_seconds := bot.delay_seconds,
          started_at := t,
          stopped_at := none,
          is_active := true,
          messages_received := 0,
          messages_forwarded := 0,
          last_activity := t }
      ({ bot with db_session := some db.sessions.length },
       { db with sessions := db.sessions ++ [row] }, log)
  else (bot, db, log)

/-- Result of one invocation of the message handler: the updated bot and
store, the diagnostic log, and `sent` — the list of message ids the handler
actually passed to `client.forward_messages`. -/
structure HandlerResult where
  bot : Bot
  db : DB
  log : List String
  sent : List Nat
deriving Repr, DecidableEq

/-- Model of `message_handler` (lines 167–206).  The only statement inside the `try`
that can raise is the `client.forward_messages` call (`forwardFails`); the
persistence helpers swallow their own failures.  A forward is attempted iff
`(self.forward_media and event.message.media)` or `(not event.message.media)`
— note that with `forward_media = False` and media present neither branch
runs, yet the counter bump and the database log still execute. -/
def message_handler (low : List Char → List Char) (hasDB : Bool) (ev : Event)
    (t : Nat) (forwardFails dbFails : Bool) (bot : Bot) (db : DB)
    (log : List String) : HandlerResult :=
  let bot1 := { bot with messages_received := bot.messages_received + 1,
                         last_message_time := some t }
  let message_text := ev.text.getD []
  let should_forward := shouldForward low bot1.keywords message_text
  if should_forward then
    if bot1.hasClient then
      let attempted := (bot1.forward_media && ev.media.isSome) || ev.media.isNone
      if attempted && forwardFails then
        let errMsg := "Error forwarding message: forward failed"
        let el := _log_error hasDB dbFails bot1.session_id "forwarding" errMsg
          (some "traceback") t db (log ++ [errMsg])
        { bot := { bot1 with errors := bot1.errors ++ [(t, errMsg)] },
          db := el.1, log := el.2, sent := [] }
      else
        let sent := if attempted then [ev.message_id] else []
        let bot2 := { bot1 with messages_forwarded := bot1.messages_forwarded + 1 }
        let fl := _log_forwarded_message low hasDB dbFails t ev should_forward bot2 db log
        { bot := bot2, db := fl.1, log := fl.2, sent := sent }
    else
      { bot := bot1, db := db, log := log, sent := [] }
  else
    { bot := bot1, db := db, log := log, sent := [] }

/-- Model of `stop_forwarding` (lines 315–330): set `running=False`, finalize the owned
session row (`stopped_at`, `is_active=False`) swallowing persistence failures,
and disconnect the client if present. -/
def stop_forwarding (hasDB dbFails : Bool) (t : Nat) (bot : Bot) (db : DB)
    (log : List String) : Bot × DB × List String :=
  let bot1 := { bot with running := false }
  let upd : DB × List String :=
    if hasDB then
      match bot1.db_session with
      | some i =>
          if dbFails then (db, log ++ ["Failed to update database session"])
          else ({ db with sessions := updateAt db.sessions i fun s =>
                    { s with stopped_at := some t, is_active := false } }, log)
      | none => (db, log)
    else (db, log)
  ({ bot1 with connected := if bot1.hasClient then false else bot1.connected },
   upd.1, upd.2)

/-! ## Control surface (Flask layer, module globals) -/

/-- A control-surface JSON response (`success` plus a `message` or `error`
key). -/
structure ApiResp where
  success : Bool
  message : Option String
  error : Option String
deriving Repr, DecidableEq

/-- The module-global state: `bot_instance`, `bot_running`, the store, and
the process-local diagnostic log. -/
structure SysState where
  bot_instance : Option Bot
  bot_running : Bool
  db : DB
  log : List String
deriving Repr, DecidableEq

/-- The environment-sourced configuration, already parsed as the
`TelegramAutoForwarder` constructor parses it. -/
structure Config where
  source_chat : String
  destination_chat : String
  keywords : List (List Char)
  forward_media : Bool
  delay_seconds : Nat
deriving Repr, DecidableEq

/-- Model of `TelegramAutoForwarder.__init__` (lines 50–75). -/
def newBot (cfg : Config) (session_id : String) : Bot :=
  { source_chat := cfg.source_chat,
    destination_chat := cfg.destination_chat,
    keywords := cfg.keywords,
    forward_media := cfg.forward_media,
    delay_seconds := cfg.delay_seconds,
    session_id := session_id,
    hasClient := false,
    connected := false,
    authenticated := false,
    running := false,
    db_session := none,
    messages_received := 0,
    messages_forwarded := 0,
    last_message_time := none,
    start_time := none,
    errors := [] }

/-- Model of `start_bot` (lines 384–405) together with the synchronous prefix of the
spawned thread (`run_bot_async` → `start_forwarding` up to the suspension at
`run_until_disconnected`), collapsed into one sequential step.  `okInit`
models `initialize()` and chat-entity resolution succeeding; `createFails`
models a persistence failure inside `_create_db_session`.  When
initialization fails without an exception, `start_forwarding` returns a
failure dict and the thread's `bot_running = True` assignment stays in place
(the `except` branch that resets it is not reached). -/
def start_bot (cfg : Config) (session_id : String) (okInit createFails hasDB : Bool)
    (t : Nat) (s : SysState) : SysState × ApiResp :=
  if s.bot_running then
    (s, { success := false, message := none, error := some "Bot is already running" })
  else
    let b := newBot cfg session_id
    if okInit then
      let b1 := { b with hasClient := true, connected := true, authenticated := true,
                         running := true, start_time := some t }
      let r := _create_db_session hasDB createFails t b1 s.db s.log
      ({ s with bot_instance := some r.1, bot_running := true, db := r.2.1, log := r.2.2 },
       { success := true, message := some "Bot start initiated. Check status for details.",
         error := none })
    else
      ({ s with bot_instance := some b, bot_running := true },
       { success := true, message := some "Bot start initiated. Check status for details.",
         error := none })

/-- Model of `stop_bot` (lines 407–420): run `stop_forwarding` on the current bot
instance if any, then clear the global running flag; always reports
success. -/
def stop_bot (hasDB dbFails : Bool) (t : Nat) (s : SysState) : SysState × ApiResp :=
  let s1 :=
    match s.bot_instance with
    | some b =>
        let r := stop_forwarding hasDB dbFails t b s.db s.log
        { s with bot_instance := some r.1, db := r.2.1, log := r.2.2 }
    | none => s
  ({ s1 with bot_running := false },
   { success := true, message := some "Bot stopped successfully", error := none })

/-! ## Dashboard query layer -/

/-- The aggregate counters returned by `get_database_stats` (lines 494–522). -/
structure DBStats where
  total_messages_forwarded : Nat
  total_sessions : Nat
  active_sessions : Nat
  total_errors : Nat
  unresolved_errors : Nat
  messages_last_24h : Nat
deriving Repr, DecidableEq

/-- Model of `get_database_stats` (lines 494–522): table counts, the
`filter_by(is_active=True)` count, unresolved-error count, and the count of
messages with `forwarded_at >= utcnow - 1 day`. -/
def get_database_stats (now : Nat) (db : DB) : DBStats :=
  { total_messages_forwarded := db.forwarded.length,
    total_sessions := db.sessions.length,
    active_sessions := (db.sessions.filter fun s => s.is_active).length,
    total_errors := db.errors.length,
    unresolved_errors := (db.errors.filter fun e => !e.resolved).length,
    messages_last_24h :=
      (db.forwarded.filter fun m => decide (now - 86400 ≤ m.forwarded_at)).length }

/-- Ordering `ORDER BY forwarded_at DESC`: later timestamps first. -/
def recentFirst (a b : ForwardedMessage) : Prop :=
  b.forwarded_at ≤ a.forwarded_at

instance : DecidableRel recentFirst :=
  fun a b => Nat.decLe b.forwarded_at a.forwarded_at

instance : IsTotal ForwardedMessage recentFirst :=
  ⟨fun a b => Nat.le_total b.forwarded_at a.forwarded_at⟩

instance : IsTrans ForwardedMessage recentFirst :=
  ⟨fun _ _ _ h1 h2 => Nat.le_trans h2 h1⟩

/-- Model of `get_forwarded_messages` (lines 445–460):
`ForwardedMessage.query.order_by(...desc()).limit(limit).all()` serialized via
`to_dict`, and the response's `total` field, which the code computes as
`len(messages)` of the already-limited list. -/
def get_forwarded_messages (limit : Nat) (db : DB) : List MsgView × Nat :=
  let messages := (List.insertionSort recentFirst db.forwarded).take limit
  (messages.map ForwardedMessage.to_dict, messages.length)

/-! ## Traces of control-surface and message events -/

/-- One externally triggered event: an operator `start` or `stop` call, or one
inbound message delivered to the registered handler. -/
inductive OpEv where
  | start (cfg : Config) (session_id : String) (okInit createFails : Bool) (t : Nat)
  | stop (dbFails : Bool) (t : Nat)
  | msg (ev : Event) (forwardFails dbFails : Bool) (t : Nat)
deriving Repr, DecidableEq

/-- Sequential small-step transition on the module-global state.  A message
event reaches the handler only while a bot instance is running (the handler
is registered by `start_forwarding` and events stop arriving once the client
disconnects). -/
def step (low : List Char → List Char) (hasDB : Bool) (s : SysState) : OpEv → SysState
  | .start cfg sid okInit createFails t => (start_bot cfg sid okInit createFails hasDB t s).1
  | .stop dbFails t => (stop_bot hasDB dbFails t s).1
  | .msg ev forwardFails dbFails t =>
      match s.bot_instance with
      | some b =>
          if b.running then
            let r := message_handler low hasDB ev t forwardFails dbFails b s.db s.log
            { s with bot_instance := some r.bot, db := r.db, log := r.log }
          else s
      | none => s

/-- The process-start state: no bot, empty tables. -/
def initState : SysState :=
  { bot_instance := none, bot_running := false,
    db := { forwarded := [], sessions := [], errors := [] }, log := [] }

/-- Execute a whole trace from process start. -/
def run (low : List Char → List Char) (hasDB : Bool) (tr : List OpEv) : SysState :=
  tr.foldl (step low hasDB) initState

/-- Holds for every event except a `stop` whose persistence write fails. -/
def stopOk : OpEv → Bool
  | .stop dbFails _ => !dbFails
  | _ => true

/-- A concrete lowercasing function (ASCII case folding per character), used
to instantiate the abstract `low` parameter in concrete witnesses. -/
def asciiLow (s : List Char) : List Char := s.map Char.toLower

/-- A concrete configuration for witnesses. -/
def cfg0 : Config :=
  { source_chat := "s", destination_chat := "d", keywords := [],
    forward_media := true, delay_seconds := 2 }

/-! ## Generic list facts used by the invariant proofs -/

theorem updateAt_updateAt {α : Type} (l : List α) (i : Nat) (f g : α → α) :
    updateAt (updateAt l i f) i g = updateAt l i (fun a => g (f a)) := by
  induction l generalizing i with
  | nil => rfl
  | cons a t ih =>
    cases i with
    | zero => rfl
    | succ n => simp [updateAt, ih]

theorem length_filter_le_one {α : Type} (p : α → Bool) (l : List α)
    (h : ∀ (i j : Nat) (a b : α), l[i]? = some a → l[j]? = some b →
      p a = true → p b = true → i = j) :
    (l.filter p).length ≤ 1 := by
  induction l with
  | nil => simp
  | cons a t ih =>
    by_cases hpa : p a = true
    · have ht : t.filter p = [] := by
        rw [List.filter_eq_nil_iff]
        intro b hb hpb
        obtain ⟨j, hj⟩ := List.mem_iff_getElem?.mp hb
        have h0 : (a :: t)[0]? = some a := by simp
        have hj1 : (a :: t)[j + 1]? = some b := by
          rw [List.getElem?_cons_succ]; exact hj
        exact Nat.noConfusion (h 0 (j + 1) a b h0 hj1 hpa hpb)
      simp [List.filter_cons, hpa, ht]
    · have hf : List.filter p (a :: t) = t.filter p := by
        simp [List.filter_cons, hpa]
      rw [hf]
      apply ih
      intro i j x y hx hy hpx hpy
      have hx1 : (a :: t)[i + 1]? = some x := by
        rw [List.getElem?_cons_succ]; exact hx
      have hy1 : (a :: t)[j + 1]? = some y := by
        rw [List.getElem?_cons_succ]; exact hy
      exact Nat.succ_injective (h (i + 1) (j + 1) x y hx1 hy1 hpx hpy)

/-- Composing the storage truncation (`[:1000]`) with the display truncation
of `to_dict` gives the 100-character cap with ellipsis marker. -/
theorem display_of_store (text : List Char) :
    (if !(text.take 1000).isEmpty && decide (100 < (text.take 1000).length) then
       (text.take 1000).take 100 ++ ['.', '.', '.']
     else text.take 1000) =
    if 100 < text.length then text.take 100 ++ ['.', '.', '.'] else text := by
  by_cases h : 100 < text.length
  · have h1 : 100 < (text.take 1000).length := by
      rw [List.length_take]
      exact lt_min (by norm_num) h
    have hne : (text.take 1000).isEmpty = false := by
      rw [← Bool.not_eq_true, List.isEmpty_iff_length_eq_zero]
      omega
    have htt : (text.take 1000).take 100 = text.take 100 := by
      rw [List.take_take, min_eq_left (by norm_num : (100 : Nat) ≤ 1000)]
    simp [hne, h1, htt, h]
  · have hall : text.take 1000 = text := List.take_of_length_le (by omega)
    rw [hall]
    simp [h]

/-- C7: for every message text, the record written by
`_log_forwarded_message` stores `text[:1000]`, and the dashboard projection
`to_dict` of that record returns the text unchanged when it has at most 100
characters, and otherwise caps it at the first 100 characters followed by the
`'...'` ellipsis marker. -/
theorem C7_truncation_round_trip (low : List Char → List Char) (t : Nat)
    (ev : Event) (matched : Bool) (bot : Bot) (db : DB) (text : List Char)
    (htext : ev.text = some text) :
    ∃ row : ForwardedMessage,
      (attemptLogForwarded low t ev matched bot db).forwarded = db.forwarded ++ [row] ∧
      row.message_text = text.take 1000 ∧
      row.to_dict.message_text =
        (if 100 < text.length then text.take 100 ++ ['.', '.', '.'] else text) := by
  unfold attemptLogForwarded
  rcases hds : bot.db_session with _ | i
  · simp only [hds, htext, Option.getD_some]
    exact ⟨_, rfl, rfl, display_of_store text⟩
  · simp only [hds, htext, Option.getD_some]
    exact ⟨_, rfl, rfl, display_of_store text⟩

/-- C7 witness: a 1500-character text is stored truncated to 1000 characters
and displayed as its first 100 characters plus `'...'`; a 5-character text
round-trips unchanged. -/
theorem C7_truncation_round_trip_witness :
    (∃ row : ForwardedMessage,
      (attemptLogForwarded asciiLow 3
          { message_id := 1, text := some (List.replicate 1500 'a'), media := none }
          true (newBot cfg0 "sid") { forwarded := [], sessions := [], errors := [] }).forwarded
        = [] ++ [row] ∧
      row.message_text = (List.replicate 1500 'a').take 1000 ∧
      row.to_dict.message_text =
        (if 100 < (List.replicate 1500 'a').length then
          (List.replicate 1500 'a').take 100 ++ ['.', '.', '.']
         else List.replicate 1500 'a')) ∧
    (∃ row : ForwardedMessage,
      (attemptLogForwarded asciiLow 3
          { message_id := 1, text := some (List.replicate 5 'a'), media := none }
          true (newBot cfg0 "sid") { forwarded := [], sessions := [], errors := [] }).forwarded
        = [] ++ [row] ∧
      row.message_text = (List.replicate 5 'a').take 1000 ∧
      row.to_dict.message_text =
        (if 100 < (List.replicate 5 'a').length then
          (List.replicate 5 'a').take 100 ++ ['.', '.', '.']
         else List.replicate 5 'a')) :=
  ⟨C7_truncation_round_trip asciiLow 3 _ true (newBot cfg0 "sid") _ _ rfl,
   C7_truncation_round_trip asciiLow 3 _ true (newBot cfg0 "sid") _ _ rfl⟩

/-- C6: a persistence-layer failure inside any of the three writers
(`_log_forwarded_message`, `_log_error`, `_create_db_session`) is swallowed:
the store is left unchanged, exactly one local diagnostic line is appended,
and the per-message handler still returns normally with the store untouched
for every outcome of the forward call. -/
theorem C6_persistence_failure_swallowed (low : List Char → List Char)
    (t : Nat) (ev : Event) (matched : Bool) (bot : Bot) (db : DB)
    (log : List String) (sid ty msg : String) (st : Option String) :
    _log_forwarded_message low true true t ev matched bot db log
        = (db, log ++ ["Failed to log forwarded message"]) ∧
    _log_error true true sid ty msg st t db log
        = (db, log ++ ["Failed to log error to database"]) ∧
    _create_db_session true true t bot db log
        = (bot, db, log ++ ["Failed to create database session"]) ∧
    (∀ forwardFails : Bool,
      (message_handler low true ev t forwardFails true bot db log).db = db) := by
  refine ⟨rfl, rfl, rfl, ?_⟩
  intro ff
  unfold message_handler _log_forwarded_message _log_error
  dsimp only
  split
  · split
    · split <;> simp
    · rfl
  · rfl

/-! ## Concrete fixtures for counterexamples and witnesses -/

/-- A bot in the running state with `forward_media = False` and no keywords
(so every message passes the filter), owning session row 0. -/
def botF : Bot :=
  { newBot { cfg0 with forward_media := false } "sid" with
    hasClient := true, connected := true, authenticated := true, running := true,
    db_session := some 0 }

/-- A bot in the running state with `forward_media = True`, owning session
row 0. -/
def botT : Bot :=
  { newBot cfg0 "sid" with
    hasClient := true, connected := true, authenticated := true, running := true,
    db_session := some 0 }

/-- A freshly created session row. -/
def sess0 : BotSession :=
  { session_id := "sid", source_chat := "s", destination_chat := "d",
    keywords := none, forward_media := false, delay_seconds := 0, started_at := 0,
    stopped_at := none, is_active := true, messages_received := 0,
    messages_forwarded := 0, last_activity := 0 }

/-- A store holding exactly the one session row. -/
def db0 : DB := { forwarded := [], sessions := [sess0], errors := [] }

/-- A media-bearing inbound message. -/
def evM : Event := { message_id := 7, text := some "hi".toList, media := some "Photo" }

/-- A plain-text inbound message. -/
def evT : Event := { message_id := 7, text := some "hi".toList, media := none }

/-! ## Characterizations of the handler's two outcome branches -/

theorem logfwd_ok (low : List Char → List Char) (t : Nat) (ev : Event)
    (mk : Bool) (bot : Bot) (db : DB) (log : List String) :
    _log_forwarded_message low true false t ev mk bot db log
      = (attemptLogForwarded low t ev mk bot db, log) := rfl

theorem attemptLogForwarded_parts (low : List Char → List Char) (t : Nat)
    (ev : Event) (mk : Bool) (bot : Bot) (db : DB) :
    (∃ row, (attemptLogForwarded low t ev mk bot db).forwarded
        = db.forwarded ++ [row]) ∧
    (attemptLogForwarded low t ev mk bot db).errors = db.errors ∧
    (attemptLogForwarded low t ev mk bot db).sessions
      = (match bot.db_session with
         | some i => updateAt db.sessions i fun s =>
             { s with messages_forwarded := s.messages_forwarded + 1,
                      last_activity := t }
         | none => db.sessions) := by
  unfold attemptLogForwarded
  rcases bot.db_session with _ | i
  · exact ⟨⟨_, rfl⟩, rfl, rfl⟩
  · exact ⟨⟨_, rfl⟩, rfl, rfl⟩

/-- In the no-exception branch (the forward either succeeds or is skipped),
`message_handler` bumps both in-memory counters and runs
`_log_forwarded_message`, and issues a forward call iff
`(forward_media and media) or (not media)`. -/
theorem message_handler_success (low : List Char → List Char) (hasDB : Bool)
    (ev : Event) (t : Nat) (ff df : Bool) (bot : Bot) (db : DB)
    (log : List String)
    (hsf : shouldForward low bot.keywords (ev.text.getD []) = true)
    (hcl : bot.hasClient = true)
    (hnoraise : (((bot.forward_media && ev.media.isSome) || ev.media.isNone) && ff)
      = false) :
    message_handler low hasDB ev t ff df bot db log =
      { bot := { bot with messages_received := bot.messages_received + 1,
                          last_message_time := some t,
                          messages_forwarded := bot.messages_forwarded + 1 },
        db := (_log_forwarded_message low hasDB df t ev true
                { bot with messages_received := bot.messages_received + 1,
                           last_message_time := some t,
                           messages_forwarded := bot.messages_forwarded + 1 }
                db log).1,
        log := (_log_forwarded_message low hasDB df t ev true
                { bot with messages_received := bot.messages_received + 1,
                           last_message_time := some t,
                           messages_forwarded := bot.messages_forwarded + 1 }
                db log).2,
        sent := if (bot.forward_media && ev.media.isSome) || ev.media.isNone
                then [ev.message_id] else [] } := by
  unfold message_handler
  dsimp only
  rw [hsf, hcl, hnoraise]
  simp [hcl]

/-- In the exception branch (a forward is attempted and the call raises),
`message_handler` records the error in memory and via `_log_error`, does not
bump the forwarded counter, and issues no forward. -/
theorem message_handler_failure (low : List Char → List Char) (hasDB : Bool)
    (ev : Event) (t : Nat) (df : Bool) (bot : Bot) (db : DB)
    (log : List String)
    (hsf : shouldForward low bot.keywords (ev.text.getD []) = true)
    (hcl : bot.hasClient = true)
    (hatt : ((bot.forward_media && ev.media.isSome) || ev.media.isNone) = true) :
    message_handler low hasDB ev t true df bot db log =
      { bot := { bot with messages_received := bot.messages_received + 1,
                          last_message_time := some t,
                          errors := bot.errors
                            ++ [(t, "Error forwarding message: forward failed")] },
        db := (_log_error hasDB df bot.session_id "forwarding"
                "Error forwarding message: forward failed" (some "traceback") t db
                (log ++ ["Error forwarding message: forward failed"])).1,
        log := (_log_error hasDB df bot.session_id "forwarding"
                "Error forwarding message: forward failed" (some "traceback") t db
                (log ++ ["Error forwarding message: forward failed"])).2,
        sent := [] } := by
  unfold message_handler
  dsimp only
  rw [hsf, hcl]
  simp only [Bool.and_true]
  rw [hatt]
  simp [hcl]

/-! ## C4: effect of the forward-media flag -/

/-- C4 counterexample: in one and the same running state with
`forward_media = False`, a media-bearing message that passes the keyword
filter produces NO call to `client.forward_messages` (`sent = []`), while a
text message does — so the flag and the media payload do affect which
messages get forwarded, refuting the claim that they have no effect. -/
theorem C4_cex :
    shouldForward asciiLow botF.keywords (evM.text.getD []) = true ∧
    botF.hasClient = true ∧
    (message_handler asciiLow true evM 5 false false botF db0 []).sent = [] ∧
    (message_handler asciiLow true evT 5 false false botF db0 []).sent
      = [evT.message_id] := by
  decide

/-- C4 amended: an inbound message that passes the keyword filter is
forwarded to the destination iff `forward_media` is true or the message
carries no media; with `forward_media = False` and media present, no forward
call is issued. -/
theorem C4_forward_condition (low : List Char → List Char) (hasDB : Bool)
    (ev : Event) (t : Nat) (dbFails : Bool) (bot : Bot) (db : DB)
    (log : List String)
    (hsf : shouldForward low bot.keywords (ev.text.getD []) = true)
    (hcl : bot.hasClient = true) :
    (message_handler low hasDB ev t false dbFails bot db log).sent =
      (if bot.forward_media || ev.media.isNone then [ev.message_id] else []) := by
  rw [message_handler_success low hasDB ev t false dbFails bot db log hsf hcl
    (by simp)]
  cases hm : ev.media <;> cases hfm : bot.forward_media <;> simp [hm, hfm]

/-- C4 witness: the amended statement evaluated at the concrete media-bearing
message and the `forward_media = False` bot. -/
theorem C4_forward_condition_witness :
    (message_handler asciiLow true evM 5 false false botF db0 []).sent =
      (if botF.forward_media || evM.media.isNone then [evM.message_id] else []) :=
  C4_forward_condition asciiLow true evM 5 false botF db0 [] (by decide) (by decide)

/-! ## C9: media-bearing message with forward_media off -/

/-- C9: when a media-bearing message passes the filter while
`forward_media = False`, no forward call is issued (`sent = []`) — for either
outcome of the forward operation, which is never reached — and yet the
in-memory forwarded counter is incremented, one `ForwardedMessage` row is
appended, and the owning session row's `messages_forwarded` is incremented,
exactly as for a real forward. -/
theorem C9_media_suppressed_still_logged (low : List Char → List Char)
    (ev : Event) (t : Nat) (forwardFails : Bool) (bot : Bot) (db : DB)
    (log : List String) (i : Nat) (srec : BotSession)
    (hsf : shouldForward low bot.keywords (ev.text.getD []) = true)
    (hcl : bot.hasClient = true)
    (hfm : bot.forward_media = false)
    (hm : ev.media.isSome = true)
    (hds : bot.db_session = some i)
    (hrow : db.sessions[i]? = some srec) :
    (message_handler low true ev t forwardFails false bot db log).sent = [] ∧
    (message_handler low true ev t forwardFails false bot db log).bot.messages_forwarded
      = bot.messages_forwarded + 1 ∧
    (∃ row, (message_handler low true ev t forwardFails false bot db log).db.forwarded
      = db.forwarded ++ [row]) ∧
    (message_handler low true ev t forwardFails false bot db log).db.sessions[i]?
      = some { srec with messages_forwarded := srec.messages_forwarded + 1,
                         last_activity := t } := by
  obtain ⟨mv, hmv⟩ := Option.isSome_iff_exists.mp hm
  have hattF : ((bot.forward_media && ev.media.isSome) || ev.media.isNone) = false := by
    simp [hfm, hmv]
  rw [message_handler_success low true ev t forwardFails false bot db log hsf hcl
    (by rw [hattF]; simp)]
  obtain ⟨⟨row, hfw⟩, herr, hsess⟩ := attemptLogForwarded_parts low t ev true
    { bot with messages_received := bot.messages_received + 1,
               last_message_time := some t,
               messages_forwarded := bot.messages_forwarded + 1 } db
  refine ⟨by simp [hattF], rfl, ?_, ?_⟩
  · exact ⟨row, by rw [logfwd_ok]; exact hfw⟩
  · rw [logfwd_ok]
    dsimp only
    rw [hsess]
    dsimp only
    rw [hds]
    rw [getElem?_updateAt]
    simp [hrow]

/-- C9 witness: the concrete media-bearing message against the running
`forward_media = False` bot. -/
theorem C9_media_suppressed_still_logged_witness :
    (message_handler asciiLow true evM 5 false false botF db0 []).sent = [] ∧
    (message_handler asciiLow true evM 5 false false botF db0 []).bot.messages_forwarded
      = botF.messages_forwarded + 1 ∧
    (∃ row, (message_handler asciiLow true evM 5 false false botF db0 []).db.forwarded
      = db0.forwarded ++ [row]) ∧
    (message_handler asciiLow true evM 5 false false botF db0 []).db.sessions[0]?
      = some { sess0 with messages_forwarded := sess0.messages_forwarded + 1,
                          last_activity := 5 } :=
  C9_media_suppressed_still_logged asciiLow evM 5 false botF db0 [] 0 sess0
    (by decide) (by decide) (by decide) (by decide) (by decide) (by decide)

/-! ## C3: accounting of successful and failed forwards -/

/-- C3: for an inbound message that passes the filter and for which a forward
is attempted (`forward_media` true, or no media): if the forward succeeds,
exactly one `ForwardedMessage` row is appended, the owning session row's
`messages_forwarded` goes up by exactly one (all other rows untouched) and no
error row is written; if the forward call fails, exactly one `ErrorLog` row
with category `"forwarding"` is appended and neither the forwarded table,
the session rows, nor the in-memory forwarded counter changes. -/
theorem C3_forward_accounting (low : List Char → List Char) (ev : Event)
    (t : Nat) (bot : Bot) (db : DB) (log : List String) (i : Nat)
    (srec : BotSession)
    (hsf : shouldForward low bot.keywords (ev.text.getD []) = true)
    (hcl : bot.hasClient = true)
    (hatt : bot.forward_media = true ∨ ev.media = none)
    (hds : bot.db_session = some i)
    (hrow : db.sessions[i]? = some srec) :
    ((∃ row, (message_handler low true ev t false false bot db log).db.forwarded
        = db.forwarded ++ [row]) ∧
      (message_handler low true ev t false false bot db log).db.sessions[i]?
        = some { srec with messages_forwarded := srec.messages_forwarded + 1,
                           last_activity := t } ∧
      (∀ j, j ≠ i → (message_handler low true ev t false false bot db log).db.sessions[j]?
        = db.sessions[j]?) ∧
      (message_handler low true ev t false false bot db log).db.errors = db.errors ∧
      (message_handler low true ev t false false bot db log).bot.messages_forwarded
        = bot.messages_forwarded + 1) ∧
    ((∃ erow, (message_handler low true ev t true false bot db log).db.errors
        = db.errors ++ [erow] ∧ erow.error_type = "forwarding") ∧
      (message_handler low true ev t true false bot db log).db.forwarded = db.forwarded ∧
      (message_handler low true ev t true false bot db log).db.sessions = db.sessions ∧
      (message_handler low true ev t true false bot db log).bot.messages_forwarded
        = bot.messages_forwarded) := by
  have hattB : ((bot.forward_media && ev.media.isSome) || ev.media.isNone) = true := by
    rcases hatt with h | h
    · cases hm : ev.media <;> simp [h, hm]
    · simp [h]
  constructor
  · rw [message_handler_success low true ev t false false bot db log hsf hcl
      (by rw [hattB]; simp)]
    obtain ⟨⟨row, hfw⟩, herr, hsess⟩ := attemptLogForwarded_parts low t ev true
      { bot with messages_received := bot.messages_received + 1,
                 last_message_time := some t,
                 messages_forwarded := bot.messages_forwarded + 1 } db
    refine ⟨⟨row, by rw [logfwd_ok]; exact hfw⟩, ?_, ?_, by rw [logfwd_ok]; exact herr, rfl⟩
    · rw [logfwd_ok]
      dsimp only
      rw [hsess]
      dsimp only
      rw [hds, getElem?_updateAt]
      simp [hrow]
    · intro j hj
      rw [logfwd_ok]
      dsimp only
      rw [hsess]
      dsimp only
      rw [hds, getElem?_updateAt, if_neg (fun hc => hj hc.symm)]
  · rw [message_handler_failure low true ev t false bot db log hsf hcl hattB]
    exact ⟨⟨_, rfl, rfl⟩, rfl, rfl, rfl⟩

/-- C3 witness: the concrete text message against the running bot, row 0. -/
theorem C3_forward_accounting_witness :
    ((∃ row, (message_handler asciiLow true evT 5 false false botT db0 []).db.forwarded
        = db0.forwarded ++ [row]) ∧
      (message_handler asciiLow true evT 5 false false botT db0 []).db.sessions[0]?
        = some { sess0 with messages_forwarded := sess0.messages_forwarded + 1,
                            last_activity := 5 } ∧
      (∀ j, j ≠ 0 → (message_handler asciiLow true evT 5 false false botT db0 []).db.sessions[j]?
        = db0.sessions[j]?) ∧
      (message_handler asciiLow true evT 5 false false botT db0 []).db.errors = db0.errors ∧
      (message_handler asciiLow true evT 5 false false botT db0 []).bot.messages_forwarded
        = botT.messages_forwarded + 1) ∧
    ((∃ erow, (message_handler asciiLow true evT 5 true false botT db0 []).db.errors
        = db0.errors ++ [erow] ∧ erow.error_type = "forwarding") ∧
      (message_handler asciiLow true evT 5 true false botT db0 []).db.forwarded = db0.forwarded ∧
      (message_handler asciiLow true evT 5 true false botT db0 []).db.sessions = db0.sessions ∧
      (message_handler asciiLow true evT 5 true false botT db0 []).bot.messages_forwarded
        = botT.messages_forwarded) :=
  C3_forward_accounting asciiLow evT 5 botT db0 [] 0 sess0
    (by decide) (by decide) (Or.inr (by decide)) (by decide) (by decide)

/-! ## C8: the database/messages endpoint -/

/-- A forwarded-message row with the given id and timestamp. -/
def mRow (i ts : Nat) : ForwardedMessage :=
  { message_id := i, source_chat := "s", destination_chat := "d",
    message_text := "x".toList, has_media := false, media_type := none,
    forwarded_at := ts, keywords_matched := none }

/-- A store with three forwarded rows. -/
def db3 : DB :=
  { forwarded := [mRow 1 10, mRow 2 30, mRow 3 20], sessions := [], errors := [] }

/-- C8 counterexample: with three stored rows and `limit = 2`, the endpoint's
`total` field is `len(messages) = 2` — the length of the already-limited
list — not the total record count `3`, so the claim that the endpoint
returns the total count of forwarded-message records is false. -/
theorem C8_cex :
    (get_forwarded_messages 2 db3).2 = 2 ∧ db3.forwarded.length = 3 ∧
    (get_forwarded_messages 2 db3).2 ≠ db3.forwarded.length := by
  decide

/-- C8 amended: the endpoint returns the most-recent-`limit` rows — a prefix
of a permutation of the table sorted by `forwarded_at` descending —
serialized via `to_dict`, together with the count of the returned rows
(`min limit total`), not the total record count. -/
theorem C8_messages_endpoint (limit : Nat) (db : DB) :
    ∃ sorted, List.Perm sorted db.forwarded ∧ List.Sorted recentFirst sorted ∧
      (get_forwarded_messages limit db).1
        = (sorted.take limit).map ForwardedMessage.to_dict ∧
      (get_forwarded_messages limit db).2 = min limit db.forwarded.length := by
  refine ⟨List.insertionSort recentFirst db.forwarded,
    List.perm_insertionSort recentFirst db.forwarded,
    List.sorted_insertionSort recentFirst db.forwarded, rfl, ?_⟩
  unfold get_forwarded_messages
  dsimp only
  rw [List.length_take,
    (List.perm_insertionSort recentFirst db.forwarded).length_eq]

/-! ## Frame facts about the handler, used by the trace invariants -/

/-- One handler invocation never touches the bot's session reference or its
running flag, and touches the session table at most by bumping the counters
of the row the bot owns. -/
theorem message_handler_frame (low : List Char → List Char) (hasDB : Bool)
    (ev : Event) (t : Nat) (ff df : Bool) (bot : Bot) (db : DB)
    (log : List String) :
    (message_handler low hasDB ev t ff df bot db log).bot.db_session = bot.db_session ∧
    (message_handler low hasDB ev t ff df bot db log).bot.running = bot.running ∧
    ((message_handler low hasDB ev t ff df bot db log).db.sessions = db.sessions ∨
      ∃ i, bot.db_session = some i ∧
        (message_handler low hasDB ev t ff df bot db log).db.sessions
          = updateAt db.sessions i fun s =>
              { s with messages_forwarded := s.messages_forwarded + 1,
                       last_activity := t }) := by
  unfold message_handler _log_forwarded_message _log_error attemptLogForwarded
  dsimp only
  split
  · split
    · split
      · refine ⟨rfl, rfl, Or.inl ?_⟩
        split
        · split <;> rfl
        · rfl
      · refine ⟨rfl, rfl, ?_⟩
        split
        · split
          · exact Or.inl rfl
          · rcases bot.db_session with _ | i
            · exact Or.inl rfl
            · exact Or.inr ⟨i, rfl, rfl⟩
        · exact Or.inl rfl
    · exact ⟨rfl, rfl, Or.inl rfl⟩
  · exact ⟨rfl, rfl, Or.inl rfl⟩

/-- Every invocation of the handler increments the in-memory received
counter by exactly one (line 169 runs unconditionally). -/
theorem message_handler_received (low : List Char → List Char) (hasDB : Bool)
    (ev : Event) (t : Nat) (ff df : Bool) (bot : Bot) (db : DB)
    (log : List String) :
    (message_handler low hasDB ev t ff df bot db log).bot.messages_received
      = bot.messages_received + 1 := by
  unfold message_handler
  dsimp only
  split
  · split
    · split <;> rfl
    · rfl
  · rfl

/-! ## C2: the single-active-run invariant -/

/-- Coupling invariant: every `is_active` session row is the row owned by the
current bot instance while the global running flag is up; and with no
database no session row exists at all. -/
def Inv (hasDB : Bool) (s : SysState) : Prop :=
  (hasDB = false → s.db.sessions = []) ∧
  (∀ (i : Nat) (r : BotSession), s.db.sessions[i]? = some r → r.is_active = true →
    s.bot_running = true ∧ ∃ b, s.bot_instance = some b ∧ b.db_session = some i)

theorem Inv_initState (hasDB : Bool) : Inv hasDB initState := by
  constructor
  · intro _; rfl
  · intro i r hri _
    simp [initState] at hri

theorem Inv_start (low : List Char → List Char) (hasDB : Bool) (cfg : Config)
    (sid : String) (okInit createFails : Bool) (t : Nat) (s : SysState)
    (hInv : Inv hasDB s) :
    Inv hasDB (step low hasDB s (.start cfg sid okInit createFails t)) := by
  by_cases hbr : s.bot_running = true
  · have hstep : step low hasDB s (.start cfg sid okInit createFails t) = s := by
      unfold step start_bot
      dsimp only
      rw [if_pos hbr]
    rw [hstep]
    exact hInv
  · have hnoact : ∀ (i : Nat) (r : BotSession), s.db.sessions[i]? = some r →
        r.is_active = true → False :=
      fun i r hri hact => hbr (hInv.2 i r hri hact).1
    unfold step start_bot
    dsimp only
    rw [if_neg hbr]
    cases okInit with
    | false =>
      exact ⟨(fun hdb => hInv.1 hdb), (fun i r hri hact => (hnoact i r hri hact).elim)⟩
    | true =>
      cases hasDB with
      | false =>
        exact ⟨(fun _ => hInv.1 rfl), (fun i r hri hact => (hnoact i r hri hact).elim)⟩
      | true =>
        cases createFails with
        | true =>
          exact ⟨(fun h => nomatch h), (fun i r hri hact => (hnoact i r hri hact).elim)⟩
        | false =>
          refine ⟨(fun h => nomatch h), ?_⟩
          intro i r hri hact
          have hri' : (s.db.sessions ++
              [{ session_id := sid, source_chat := cfg.source_chat,
                 destination_chat := cfg.destination_chat,
                 keywords := if cfg.keywords.isEmpty then none
                             else some (joinComma cfg.keywords),
                 forward_media := cfg.forward_media,
                 delay_seconds := cfg.delay_seconds, started_at := t,
                 stopped_at := none, is_active := true, messages_received := 0,
                 messages_forwarded := 0, last_activity := t }])[i]? = some r := hri
          rw [List.getElem?_append] at hri'
          by_cases hi : i < s.db.sessions.length
          · rw [if_pos hi] at hri'
            exact (hnoact i r hri' hact).elim
          · rw [if_neg hi] at hri'
            have hik : i = s.db.sessions.length := by
              rcases hk : i - s.db.sessions.length with _ | n
              · omega
              · rw [hk] at hri'
                simp at hri'
            refine ⟨rfl, _, rfl, ?_⟩
            rw [hik]
            rfl


/-- The bot record after `stop_forwarding` has run on it. -/
def stoppedBot (b : Bot) : Bot :=
  { b with running := false,
           connected := if b.hasClient then false else b.connected }

/-- The store after `stop_forwarding` finalizes the owned session row. -/
def finalizeSession (t k : Nat) (db : DB) : DB :=
  { db with sessions := updateAt db.sessions k fun x =>
      { x with stopped_at := some t, is_active := false } }

theorem Inv_stop (low : List Char → List Char) (hasDB : Bool) (t : Nat)
    (s : SysState) (hInv : Inv hasDB s) :
    Inv hasDB (step low hasDB s (.stop false t)) := by
  have hstep : step low hasDB s (.stop false t) = (stop_bot hasDB false t s).1 := rfl
  rcases hbi : s.bot_instance with _ | b
  · have h2 : (stop_bot hasDB false t s).1 = { s with bot_running := false } := by
      unfold stop_bot
      conv_lhs => rw [hbi]
    rw [hstep, h2]
    refine ⟨(fun hdb => hInv.1 hdb), ?_⟩
    intro i r hri hact
    obtain ⟨_, b', hb', _⟩ := hInv.2 i r hri hact
    rw [hbi] at hb'
    exact Option.noConfusion hb'
  · have h2 : (stop_bot hasDB false t s).1 =
        { s with
          bot_instance := some (stop_forwarding hasDB false t b s.db s.log).1,
          bot_running := false,
          db := (stop_forwarding hasDB false t b s.db s.log).2.1,
          log := (stop_forwarding hasDB false t b s.db s.log).2.2 } := by
      unfold stop_bot
      rw [hbi]
    rw [hstep, h2]
    rcases hds : b.db_session with _ | k
    · have h3 : stop_forwarding hasDB false t b s.db s.log
          = (stoppedBot b, s.db, s.log) := by
        unfold stop_forwarding stoppedBot
        dsimp only
        rw [hds]
        cases hasDB <;> rfl
      rw [h3]
      refine ⟨(fun hdb => hInv.1 hdb), ?_⟩
      intro i r hri hact
      obtain ⟨_, b', hb', hds'⟩ := hInv.2 i r hri hact
      rw [hbi] at hb'
      obtain rfl := Option.some.inj hb'
      rw [hds] at hds'
      exact Option.noConfusion hds'
    · cases hasDB with
      | false =>
        have h3 : stop_forwarding false false t b s.db s.log
            = (stoppedBot b, s.db, s.log) := by
          unfold stop_forwarding stoppedBot
          rfl
        rw [h3]
        refine ⟨(fun _ => hInv.1 rfl), ?_⟩
        intro i r hri hact
        have hri0 : s.db.sessions[i]? = some r := hri
        rw [hInv.1 rfl] at hri0
        exact absurd hri0 (by simp)
      | true =>
        have h3 : stop_forwarding true false t b s.db s.log
            = (stoppedBot b, finalizeSession t k s.db, s.log) := by
          unfold stop_forwarding stoppedBot finalizeSession
          dsimp only
          rw [hds]
          rfl
        rw [h3]
        refine ⟨(fun h => nomatch h), ?_⟩
        intro i r hri hact
        have hri0 : (updateAt s.db.sessions k fun x =>
            { x with stopped_at := some t, is_active := false })[i]? = some r := hri
        rw [getElem?_updateAt] at hri0
        by_cases hki : k = i
        · rw [if_pos hki] at hri0
          obtain ⟨r0, hr0, hrfin⟩ := Option.map_eq_some'.mp hri0
          rw [← hrfin] at hact
          exact Bool.noConfusion hact
        · rw [if_neg hki] at hri0
          obtain ⟨_, b', hb', hds'⟩ := hInv.2 i r hri0 hact
          rw [hbi] at hb'
          obtain rfl := Option.some.inj hb'
          rw [hds] at hds'
          exact (hki (Option.some.inj hds')).elim

theorem Inv_msg (low : List Char → List Char) (hasDB : Bool) (ev : Event)
    (ff df : Bool) (t : Nat) (s : SysState) (hInv : Inv hasDB s) :
    Inv hasDB (step low hasDB s (.msg ev ff df t)) := by
  rcases hbi : s.bot_instance with _ | b
  · have h2 : step low hasDB s (.msg ev ff df t) = s := by
      unfold step
      rw [hbi]
    rw [h2]
    exact hInv
  · have h2 : step low hasDB s (.msg ev ff df t)
        = if b.running = true then
            { s with
              bot_instance := some (message_handler low hasDB ev t ff df b s.db s.log).bot,
              db := (message_handler low hasDB ev t ff df b s.db s.log).db,
              log := (message_handler low hasDB ev t ff df b s.db s.log).log }
          else s := by
      unfold step
      rw [hbi]
    rw [h2]
    by_cases hr : b.running = true
    · rw [if_pos hr]
      obtain ⟨hds, hrun, hsess⟩ := message_handler_frame low hasDB ev t ff df b s.db s.log
      constructor
      · intro hdb
        have hempty := hInv.1 hdb
        rcases hsess with h | ⟨j, hj, h⟩
        · show (message_handler low hasDB ev t ff df b s.db s.log).db.sessions = []
          rw [h]
          exact hempty
        · show (message_handler low hasDB ev t ff df b s.db s.log).db.sessions = []
          rw [h, hempty]
          rfl
      · intro i rr hri hact
        have hri' : (message_handler low hasDB ev t ff df b s.db s.log).db.sessions[i]?
            = some rr := hri
        rcases hsess with h | ⟨j, hj, h⟩
        · rw [h] at hri'
          obtain ⟨hbr, b', hb', hds'⟩ := hInv.2 i rr hri' hact
          rw [hbi] at hb'
          obtain rfl := Option.some.inj hb'
          exact ⟨hbr, _, rfl, by rw [hds]; exact hds'⟩
        · rw [h, getElem?_updateAt] at hri'
          by_cases hji : j = i
          · rw [if_pos hji] at hri'
            obtain ⟨r0, hr0, hrinc⟩ := Option.map_eq_some'.mp hri'
            have hact0 : r0.is_active = true := by
              rw [← hrinc] at hact
              exact hact
            obtain ⟨hbr, b', hb', hds'⟩ := hInv.2 i r0 hr0 hact0
            rw [hbi] at hb'
            obtain rfl := Option.some.inj hb'
            exact ⟨hbr, _, rfl, by rw [hds]; exact hds'⟩
          · rw [if_neg hji] at hri'
            obtain ⟨hbr, b', hb', hds'⟩ := hInv.2 i rr hri' hact
            rw [hbi] at hb'
            obtain rfl := Option.some.inj hb'
            exact ⟨hbr, _, rfl, by rw [hds]; exact hds'⟩
    · rw [if_neg hr]
      exact hInv

theorem Inv_step (low : List Char → List Char) (hasDB : Bool) (s : SysState)
    (e : OpEv) (hInv : Inv hasDB s) (hok : stopOk e = true) :
    Inv hasDB (step low hasDB s e) := by
  cases e with
  | start cfg sid okInit createFails t =>
    exact Inv_start low hasDB cfg sid okInit createFails t s hInv
  | stop dbFails t =>
    have hdf : dbFails = false := by
      simpa [stopOk] using hok
    rw [hdf]
    exact Inv_stop low hasDB t s hInv
  | msg ev ff df t =>
    exact Inv_msg low hasDB ev ff df t s hInv

theorem Inv_fold (low : List Char → List Char) (hasDB : Bool) :
    ∀ (tr : List OpEv) (s : SysState), Inv hasDB s →
      (∀ e ∈ tr, stopOk e = true) →
      Inv hasDB (tr.foldl (step low hasDB) s) := by
  intro tr
  induction tr with
  | nil => intro s hs _; exact hs
  | cons e es ih =>
    intro s hs hok
    exact ih (step low hasDB s e)
      (Inv_step low hasDB s e hs (hok e (by simp)))
      (fun x hx => hok x (by simp [hx]))

/-- C2 counterexample: the unconditional single-active-row claim is false on
the code.  In `stop_forwarding` (lines 320–327) a failing `commit()` is
caught and swallowed, so the session row keeps `is_active=True`, while
`stop_bot` still clears the global running flag; the next `start_bot` then
passes its guard and `_create_db_session` inserts a second `is_active=True`
row.  After start, stop with a persistence failure, start, the aggregate
active-session count reported by `get_database_stats` is 2, not at most 1. -/
theorem C2_cex :
    (get_database_stats 9 (run asciiLow true
        [.start cfg0 "a" true false 0, .stop true 1,
         .start cfg0 "b" true false 2]).db).active_sessions = 2 ∧
    ¬ (get_database_stats 9 (run asciiLow true
        [.start cfg0 "a" true false 0, .stop true 1,
         .start cfg0 "b" true false 2]).db).active_sessions ≤ 1 := by
  decide

/-- C2 amended: for every sequence of start, stop and message events in which
each stop's session-finalization commit succeeds, the aggregate
active-session count reported by `get_database_stats` never exceeds 1; and a
start call issued while the bot is already running fails with the
already-running error and leaves the state — in particular the
active-session count — unchanged. -/
theorem C2_single_active_session (low : List Char → List Char) (hasDB : Bool)
    (tr : List OpEv) (now : Nat)
    (hok : ∀ e ∈ tr, stopOk e = true) :
    (get_database_stats now (run low hasDB tr).db).active_sessions ≤ 1 ∧
    (∀ cfg sid okInit createFails t, (run low hasDB tr).bot_running = true →
      start_bot cfg sid okInit createFails hasDB t (run low hasDB tr)
        = ((run low hasDB tr),
           { success := false, message := none,
             error := some "Bot is already running" })) := by
  have hInv := Inv_fold low hasDB tr initState (Inv_initState hasDB) hok
  constructor
  · unfold get_database_stats
    dsimp only
    apply length_filter_le_one
    intro i j a b hia hjb hpa hpb
    obtain ⟨_, b1, hb1, hd1⟩ := hInv.2 i a hia hpa
    obtain ⟨_, b2, hb2, hd2⟩ := hInv.2 j b hjb hpb
    rw [hb1] at hb2
    obtain rfl := Option.some.inj hb2
    rw [hd1] at hd2
    exact Option.some.inj hd2
  · intro cfg sid okInit createFails t hbr
    unfold start_bot
    rw [if_pos hbr]

/-- C2 witness: a start/stop/start trace keeps the active-session count at
most 1. -/
theorem C2_single_active_session_witness :
    (get_database_stats 9 (run asciiLow true
        [.start cfg0 "a" true false 0, .stop false 1,
         .start cfg0 "b" true false 2]).db).active_sessions ≤ 1 :=
  (C2_single_active_session asciiLow true
    [.start cfg0 "a" true false 0, .stop false 1, .start cfg0 "b" true false 2] 9
    (by decide)).1

/-! ## C10: the persisted messages_received column -/

/-- The `BotSession` row inserted by `_create_db_session` for config `cfg`,
session id `sid`, start time `t`. -/
def newSessionRow (cfg : Config) (sid : String) (t : Nat) : BotSession :=
  { session_id := sid, source_chat := cfg.source_chat,
    destination_chat := cfg.destination_chat,
    keywords := if cfg.keywords.isEmpty then none else some (joinComma cfg.keywords),
    forward_media := cfg.forward_media, delay_seconds := cfg.delay_seconds,
    started_at := t, stopped_at := none, is_active := true,
    messages_received := 0, messages_forwarded := 0, last_activity := t }

/-- The sessions table after `stop_forwarding`: unchanged, or the owned row
finalized. -/
theorem stop_forwarding_sessions (hasDB dbFails : Bool) (t : Nat) (b : Bot)
    (db : DB) (log : List String) :
    ((stop_forwarding hasDB dbFails t b db log).2.1.sessions = db.sessions) ∨
    (∃ k, (stop_forwarding hasDB dbFails t b db log).2.1.sessions
        = updateAt db.sessions k fun x =>
            { x with stopped_at := some t, is_active := false }) := by
  unfold stop_forwarding
  dsimp only
  rcases b.db_session with _ | k
  · cases hasDB <;> exact Or.inl rfl
  · cases hasDB with
    | false => exact Or.inl rfl
    | true =>
      cases dbFails with
      | true => exact Or.inl rfl
      | false => exact Or.inr ⟨k, rfl⟩

/-- No code path writes the `messages_received` column: it is 0 in every
persisted session row. -/
def Inv10 (s : SysState) : Prop :=
  ∀ (i : Nat) (r : BotSession), s.db.sessions[i]? = some r →
    r.messages_received = 0

theorem Inv10_initState : Inv10 initState := by
  intro i r hri
  simp [initState] at hri

theorem Inv10_step (low : List Char → List Char) (hasDB : Bool) (s : SysState)
    (e : OpEv) (h : Inv10 s) : Inv10 (step low hasDB s e) := by
  cases e with
  | start cfg sid okInit createFails t =>
    by_cases hbr : s.bot_running = true
    · have hstep : step low hasDB s (.start cfg sid okInit createFails t) = s := by
        unfold step start_bot
        dsimp only
        rw [if_pos hbr]
      rw [hstep]
      exact h
    · unfold step start_bot
      dsimp only
      rw [if_neg hbr]
      cases okInit with
      | false => exact h
      | true =>
        cases hasDB with
        | false => exact h
        | true =>
          cases createFails with
          | true => exact h
          | false =>
            intro i r hri
            have hri' : (s.db.sessions ++ [newSessionRow cfg sid t])[i]? = some r := hri
            rw [List.getElem?_append] at hri'
            by_cases hi : i < s.db.sessions.length
            · rw [if_pos hi] at hri'
              exact h i r hri'
            · rw [if_neg hi] at hri'
              rcases hk : i - s.db.sessions.length with _ | n
              · rw [hk] at hri'
                have hr2 : some (newSessionRow cfg sid t) = some r := hri'
                rw [← Option.some.inj hr2]
                rfl
              · rw [hk] at hri'
                simp at hri'
  | stop dbFails t =>
    rcases hbi : s.bot_instance with _ | b
    · have hstep : step low hasDB s (.stop dbFails t) = { s with bot_running := false } := by
        unfold step stop_bot
        conv_lhs => rw [hbi]
      rw [hstep]
      exact h
    · have hstep : step low hasDB s (.stop dbFails t) =
          { s with
            bot_instance := some (stop_forwarding hasDB dbFails t b s.db s.log).1,
            bot_running := false,
            db := (stop_forwarding hasDB dbFails t b s.db s.log).2.1,
            log := (stop_forwarding hasDB dbFails t b s.db s.log).2.2 } := by
        unfold step stop_bot
        conv_lhs => rw [hbi]
      rw [hstep]
      intro i r hri
      have hri0 : (stop_forwarding hasDB dbFails t b s.db s.log).2.1.sessions[i]?
          = some r := hri
      rcases stop_forwarding_sessions hasDB dbFails t b s.db s.log with hs | ⟨k, hs⟩
      · rw [hs] at hri0
        exact h i r hri0
      · rw [hs, getElem?_updateAt] at hri0
        by_cases hki : k = i
        · rw [if_pos hki] at hri0
          obtain ⟨r0, hr0, hrfin⟩ := Option.map_eq_some'.mp hri0
          rw [← hrfin]
          exact h i r0 hr0
        · rw [if_neg hki] at hri0
          exact h i r hri0
  | msg ev ff df t =>
    rcases hbi : s.bot_instance with _ | b
    · have hstep : step low hasDB s (.msg ev ff df t) = s := by
        unfold step
        rw [hbi]
      rw [hstep]
      exact h
    · have hstep : step low hasDB s (.msg ev ff df t)
          = if b.running = true then
              { s with
                bot_instance := some (message_handler low hasDB ev t ff df b s.db s.log).bot,
                db := (message_handler low hasDB ev t ff df b s.db s.log).db,
                log := (message_handler low hasDB ev t ff df b s.db s.log).log }
            else s := by
        unfold step
        rw [hbi]
      rw [hstep]
      by_cases hr : b.running = true
      · rw [if_pos hr]
        obtain ⟨_, _, hsess⟩ := message_handler_frame low hasDB ev t ff df b s.db s.log
        intro i r hri
        have hri0 : (message_handler low hasDB ev t ff df b s.db s.log).db.sessions[i]?
            = some r := hri
        rcases hsess with hs | ⟨k, hk2, hs⟩
        · rw [hs] at hri0
          exact h i r hri0
        · rw [hs, getElem?_updateAt] at hri0
          by_cases hki : k = i
          · rw [if_pos hki] at hri0
            obtain ⟨r0, hr0, hrfin⟩ := Option.map_eq_some'.mp hri0
            rw [← hrfin]
            exact h i r0 hr0
          · rw [if_neg hki] at hri0
            exact h i r hri0
      · rw [if_neg hr]
        exact h

theorem Inv10_fold (low : List Char → List Char) (hasDB : Bool) :
    ∀ (tr : List OpEv) (s : SysState), Inv10 s →
      Inv10 (tr.foldl (step low hasDB) s) := by
  intro tr
  induction tr with
  | nil => intro s hs; exact hs
  | cons e es ih =>
    intro s hs
    exact ih _ (Inv10_step low hasDB s e hs)

/-- C10: over every trace of start, stop and message events — including ones
with forward or persistence failures — every persisted `BotSession` row keeps
`messages_received` at its column default 0; only the in-memory counter of
the handler tracks received messages, going up by one on every inbound
event. -/
theorem C10_received_column_stays_zero (low : List Char → List Char)
    (hasDB : Bool) (tr : List OpEv) :
    (∀ r ∈ (run low hasDB tr).db.sessions, r.messages_received = 0) ∧
    (∀ (ev : Event) (t : Nat) (ff df : Bool) (bot : Bot) (db : DB)
        (log : List String),
      (message_handler low hasDB ev t ff df bot db log).bot.messages_received
        = bot.messages_received + 1) := by
  constructor
  · intro r hr
    obtain ⟨i, hi⟩ := List.mem_iff_getElem?.mp hr
    exact Inv10_fold low hasDB tr initState Inv10_initState i r hi
  · intro ev t ff df bot db log
    exact message_handler_received low hasDB ev t ff df bot db log

/-- The session row as it stands after the trace of the C10 witness: one
message has been forwarded, `messages_received` still 0. -/
def c10row : BotSession :=
  { session_id := "a", source_chat := "s", destination_chat := "d",
    keywords := none, forward_media := true, delay_seconds := 2,
    started_at := 0, stopped_at := none, is_active := true,
    messages_received := 0, messages_forwarded := 1, last_activity := 3 }

/-- C10 witness: after a start and one handled message, the persisted row's
`messages_received` is still 0. -/
theorem C10_received_column_stays_zero_witness : c10row.messages_received = 0 :=
  (C10_received_column_stays_zero asciiLow true
    [.start cfg0 "a" true false 0, .msg evT false false 3]).1 c10row (by decide)

/-! ## C5: idempotence of stop -/

theorem stop_bot_state_none (hasDB dbFails : Bool) (t : Nat) (s : SysState)
    (hbi : s.bot_instance = none) :
    (stop_bot hasDB dbFails t s).1 = { s with bot_running := false } := by
  unfold stop_bot
  conv_lhs => rw [hbi]

theorem stop_bot_state_some (hasDB dbFails : Bool) (t : Nat) (s : SysState)
    (b : Bot) (hbi : s.bot_instance = some b) :
    (stop_bot hasDB dbFails t s).1 =
      { s with
        bot_instance := some (stop_forwarding hasDB dbFails t b s.db s.log).1,
        bot_running := false,
        db := (stop_forwarding hasDB dbFails t b s.db s.log).2.1,
        log := (stop_forwarding hasDB dbFails t b s.db s.log).2.2 } := by
  unfold stop_bot
  conv_lhs => rw [hbi]

theorem stop_forwarding_noDB (t : Nat) (b : Bot) (db : DB) (log : List String) :
    stop_forwarding false false t b db log = (stoppedBot b, db, log) := by
  unfold stop_forwarding stoppedBot
  rfl

theorem stop_forwarding_refNone (hasDB : Bool) (t : Nat) (b : Bot) (db : DB)
    (log : List String) (hds : b.db_session = none) :
    stop_forwarding hasDB false t b db log = (stoppedBot b, db, log) := by
  unfold stop_forwarding stoppedBot
  dsimp only
  rw [hds]
  cases hasDB <;> rfl

theorem stop_forwarding_refSome (t : Nat) (b : Bot) (db : DB)
    (log : List String) (k : Nat) (hds : b.db_session = some k) :
    stop_forwarding true false t b db log
      = (stoppedBot b, finalizeSession t k db, log) := by
  unfold stop_forwarding stoppedBot finalizeSession
  dsimp only
  rw [hds]
  rfl

theorem stoppedBot_idem (b : Bot) : stoppedBot (stoppedBot b) = stoppedBot b := by
  cases hcl : b.hasClient <;> simp [stoppedBot, hcl]

theorem finalizeSession_idem (t1 t2 k : Nat) (db : DB) :
    finalizeSession t2 k (finalizeSession t1 k db) = finalizeSession t2 k db := by
  unfold finalizeSession
  dsimp only
  rw [updateAt_updateAt]

/-- Running `stop_forwarding` a second time (with working persistence) on the
outcome of a first run yields exactly the state of a single run at the later
timestamp. -/
theorem stop_forwarding_idem (hasDB : Bool) (t1 t2 : Nat) (b : Bot) (db : DB)
    (log : List String) :
    stop_forwarding hasDB false t2 (stop_forwarding hasDB false t1 b db log).1
        (stop_forwarding hasDB false t1 b db log).2.1
        (stop_forwarding hasDB false t1 b db log).2.2
      = stop_forwarding hasDB false t2 b db log := by
  cases hasDB with
  | false =>
    rw [stop_forwarding_noDB t1 b db log]
    dsimp only
    rw [stop_forwarding_noDB t2 (stoppedBot b) db log,
      stop_forwarding_noDB t2 b db log, stoppedBot_idem]
  | true =>
    rcases hds : b.db_session with _ | k
    · rw [stop_forwarding_refNone true t1 b db log hds]
      dsimp only
      rw [stop_forwarding_refNone true t2 (stoppedBot b) db log hds,
        stop_forwarding_refNone true t2 b db log hds, stoppedBot_idem]
    · rw [stop_forwarding_refSome t1 b db log k hds]
      dsimp only
      rw [stop_forwarding_refSome t2 (stoppedBot b) (finalizeSession t1 k db) log k hds,
        stop_forwarding_refSome t2 b db log k hds, stoppedBot_idem,
        finalizeSession_idem]

theorem finalizeSession_sessions (t k : Nat) (db : DB) :
    (finalizeSession t k db).sessions = updateAt db.sessions k fun x =>
      { x with stopped_at := some t, is_active := false } := rfl

/-- C5: `stop` is idempotent and total.  Calling `stop_bot` twice in a row
(persistence working) yields exactly the same state and response as calling
it once at the later timestamp; the response is always success (the function
never raises); after one stop the global running flag is down; when no
session instance exists, stop is a pure no-op apart from clearing the flag;
and when a session owns a row, one stop finalizes that row (stop timestamp
set, `is_active = false`) and leaves the instance's running flag false. -/
theorem C5_stop_idempotent (hasDB : Bool) (t1 t2 : Nat) (s : SysState) :
    stop_bot hasDB false t2 (stop_bot hasDB false t1 s).1
        = stop_bot hasDB false t2 s ∧
    (stop_bot hasDB false t1 s).2
        = { success := true, message := some "Bot stopped successfully",
            error := none } ∧
    (stop_bot hasDB false t1 s).1.bot_running = false ∧
    (s.bot_instance = none →
      (stop_bot hasDB false t1 s).1 = { s with bot_running := false }) ∧
    (∀ (b : Bot) (k : Nat) (r : BotSession), s.bot_instance = some b →
      b.db_session = some k → hasDB = true → s.db.sessions[k]? = some r →
      (stop_bot hasDB false t1 s).1.db.sessions[k]?
          = some { r with stopped_at := some t1, is_active := false } ∧
      (∃ b1, (stop_bot hasDB false t1 s).1.bot_instance = some b1 ∧
        b1.running = false)) := by
  refine ⟨?_, rfl, rfl, ?_, ?_⟩
  · rcases hbi : s.bot_instance with _ | b
    · have h1 := stop_bot_state_none hasDB false t1 s hbi
      have hbi2 : (stop_bot hasDB false t1 s).1.bot_instance = none := by
        rw [h1]
        exact hbi
      have h2 := stop_bot_state_none hasDB false t2 (stop_bot hasDB false t1 s).1 hbi2
      have h3 := stop_bot_state_none hasDB false t2 s hbi
      refine Prod.ext ?_ rfl
      rw [h2, h3, h1]
    · have h1 := stop_bot_state_some hasDB false t1 s b hbi
      have hbi2 : (stop_bot hasDB false t1 s).1.bot_instance
          = some (stop_forwarding hasDB false t1 b s.db s.log).1 := by
        rw [h1]
      have h2 := stop_bot_state_some hasDB false t2 (stop_bot hasDB false t1 s).1
        (stop_forwarding hasDB false t1 b s.db s.log).1 hbi2
      have h3 := stop_bot_state_some hasDB false t2 s b hbi
      refine Prod.ext ?_ rfl
      rw [h2, h3, h1]
      dsimp only
      rw [stop_forwarding_idem hasDB t1 t2 b s.db s.log]
  · intro hbi
    exact stop_bot_state_none hasDB false t1 s hbi
  · intro b k r hbi hds hDB hrow
    cases hDB
    have h1 := stop_bot_state_some true false t1 s b hbi
    constructor
    · rw [h1]
      dsimp only
      rw [stop_forwarding_refSome t1 b s.db s.log k hds]
      dsimp only
      rw [finalizeSession_sessions, getElem?_updateAt, if_pos rfl, hrow]
      rfl
    · refine ⟨(stop_forwarding true false t1 b s.db s.log).1, by rw [h1], ?_⟩
      rw [stop_forwarding_refSome t1 b s.db s.log k hds]
      rfl

/-- State after a successful start, used by the C5 witness. -/
def s5 : SysState := run asciiLow true [.start cfg0 "a" true false 0]

/-- The bot instance inside `s5`. -/
def bot5 : Bot :=
  { newBot cfg0 "a" with
    hasClient := true, connected := true, authenticated := true, running := true,
    start_time := some 0, db_session := some 0 }

/-- The session row inside `s5`. -/
def row5 : BotSession := newSessionRow cfg0 "a" 0

/-- C5 witness: idempotence, the no-op case and the finalization case, each
evaluated at a concrete state. -/
theorem C5_stop_idempotent_witness :
    (stop_bot true false 7 (stop_bot true false 4 s5).1 = stop_bot true false 7 s5) ∧
    ((stop_bot true false 4 initState).1 = { initState with bot_running := false }) ∧
    ((stop_bot true false 4 s5).1.db.sessions[0]?
        = some { row5 with stopped_at := some 4, is_active := false }) ∧
    (∃ b1, (stop_bot true false 4 s5).1.bot_instance = some b1 ∧
      b1.running = false) :=
  ⟨(C5_stop_idempotent true 4 7 s5).1,
   (C5_stop_idempotent true 4 7 initState).2.2.2.1 rfl,
   ((C5_stop_idempotent true 4 7 s5).2.2.2.2 bot5 0 row5 (by decide) (by decide)
     rfl (by decide)).1,
   ((C5_stop_idempotent true 4 7 s5).2.2.2.2 bot5 0 row5 (by decide) (by decide)
     rfl (by decide)).2⟩

end AutoForward
